import Mathlib

/-!
Verification of the cursor/viewport navigation core of the `pepe` terminal
text viewer.  The definitions below are a shallow embedding of the Rust code
in `src/input.rs` and `src/text.rs` (the module set actually referenced by
the specification): lines are byte lists, machine integers are `Nat`/`Int`,
and any operation whose Rust source can terminate abnormally (a panicking
subtraction on `usize`, a panicking index, a failing `assert!`, a `%` by
zero) is embedded as an `Option`-returning function where `none` marks the
panic.  Subtractions that the source guards (so that they can never
underflow) are embedded as plain truncated `Nat` subtraction.
-/

namespace Pepe

/-- Rust `usize` subtraction under debug semantics: `none` is the underflow
panic. -/
def rustSub (a b : Nat) : Option Nat :=
  if b ≤ a then some (a - b) else none

/-- Rust `usize` remainder: `none` is the division-by-zero panic. -/
def rustMod (a b : Nat) : Option Nat :=
  if b = 0 then none else some (a % b)

/-- Mirrors `u8::is_ascii_whitespace` from the padding loops in
`src/input.rs`. -/
def isAsciiWhitespaceByte (b : Nat) : Bool :=
  b = 9 || b = 10 || b = 12 || b = 13 || b = 32

/-- The `while curr_padding < curr_line.len() && ...is_ascii_whitespace()`
loop shared by the four `adjust_column_*` routines in `src/input.rs`. -/
def leadingPadding : List Nat → Nat
  | [] => 0
  | b :: rest => if isAsciiWhitespaceByte b then leadingPadding rest + 1 else 0

/-- `Document` from `src/text.rs` (the `path` field is irrelevant to every
claim and omitted); a line is the byte list of its stored string. -/
structure Document where
  inner_lines : List (List Nat)
deriving DecidableEq

/-- `EditorState` from `src/main.rs` as used by `src/input.rs`. -/
structure EditorState where
  doc_lines : Nat
  running : Bool
  rows : Nat
  columns : Nat
deriving DecidableEq

/-- `CursorState` from `src/input.rs`. -/
structure CursorState where
  last_column : Bool
  last_padding : Nat
  scroll_y : Nat
deriving DecidableEq

/-- `Cursor` from `src/input.rs`. -/
structure Cursor where
  column : Nat
  row : Nat
deriving DecidableEq

/-- `RenderState` from `src/render.rs`. -/
structure RenderState where
  modif_row : Option Nat
  modif_all : Bool
  last_cursor : Option Cursor
  modif_status : Bool
deriving DecidableEq

/-- `KeyModifiers` restricted to the two bits `src/input.rs` inspects. -/
structure Modifiers where
  control : Bool
  shift : Bool
deriving DecidableEq

/-- `Cursor::move_up` (`src/input.rs` lines 200-218).  Both subtractions are
guarded by the source, so the function is total. -/
def move_up (c : Cursor) (cs : CursorState) (rs : RenderState) :
    Cursor × CursorState × RenderState :=
  if c.row = 0 then
    if 0 < cs.scroll_y then
      (c, { cs with scroll_y := cs.scroll_y - 1 }, { rs with modif_all := true })
    else
      (c, cs, rs)
  else
    ({ c with row := c.row - 1 }, cs, { rs with last_cursor := some c })

/-- `Cursor::move_down` (`src/input.rs` lines 222-247).  The source computes
`*rows - 1`, `*doc_lines - *rows` and `*doc_lines - *scroll_y - 1` with raw
`usize` subtraction, so each is a potential panic. -/
def move_down (es : EditorState) (c : Cursor) (cs : CursorState)
    (rs : RenderState) : Option (Cursor × CursorState × RenderState) := do
  let rm1 ← rustSub es.rows 1
  if c.row = rm1 then
    let lim ← rustSub es.doc_lines es.rows
    if cs.scroll_y < lim then
      return (c, { cs with scroll_y := cs.scroll_y + 1 },
              { rs with modif_all := true })
    else
      return (c, cs, rs)
  else
    if cs.scroll_y ≠ 0 ∨ es.doc_lines ≠ 0 then
      let t ← rustSub es.doc_lines cs.scroll_y
      let lim ← rustSub t 1
      if c.row < lim then
        return ({ c with row := c.row + 1 }, cs,
                { rs with last_cursor := some c })
      else
        return (c, cs, rs)
    else
      return (c, cs, rs)

/-- `Cursor::page_up` (`src/input.rs` lines 250-269).  The source uses
`checked_sub`, so the function is total. -/
def page_up (es : EditorState) (c : Cursor) (cs : CursorState)
    (rs : RenderState) : Cursor × CursorState × RenderState :=
  if es.rows ≤ cs.scroll_y then
    (c, { cs with scroll_y := cs.scroll_y - es.rows },
     { rs with modif_all := true })
  else
    ({ c with row := 0 }, { cs with scroll_y := 0 },
     { rs with last_cursor := some c })

/-- `Cursor::page_down` (`src/input.rs` lines 273-290).  `doc_lines % rows`
panics when `rows = 0`; the following `checked_sub(1).unwrap_or(0)` is
truncated `Nat` subtraction. -/
def page_down (es : EditorState) (c : Cursor) (cs : CursorState)
    (rs : RenderState) : Option (Cursor × CursorState × RenderState) := do
  if cs.scroll_y + es.rows ≤ es.doc_lines then
    return (c, { cs with scroll_y := cs.scroll_y + es.rows },
            { rs with modif_all := true })
  else
    let m ← rustMod es.doc_lines es.rows
    return ({ c with row := m - 1 }, cs, { rs with last_cursor := some c })

/-- `Cursor::scroll_down` (`src/input.rs` lines 292-310).  The raw
`doc_lines - *scroll_y - 1` is a potential panic; `self.row -= 1` is guarded
by `self.row != 0`. -/
def scroll_down (es : EditorState) (c : Cursor) (cs : CursorState)
    (rs : RenderState) : Option (Cursor × CursorState × RenderState) := do
  if cs.scroll_y ≠ 0 ∨ es.doc_lines ≠ 0 then
    let t ← rustSub es.doc_lines cs.scroll_y
    let lim ← rustSub t 1
    if c.row < lim then
      let c2 := if c.row ≠ 0 then { c with row := c.row - 1 } else c
      return (c2, { cs with scroll_y := cs.scroll_y + 1 },
              { rs with modif_all := true })
    else
      return (c, cs, rs)
  else
    return (c, cs, rs)

/-- `Cursor::scroll_up` (`src/input.rs` lines 312-345).  In the source the
second branch is guarded by `*scroll_y >= 0`, which is always true on
`usize`, so that branch executes `*scroll_y -= 1` and `*rows - 1` with raw
subtraction (both potential panics); the trailing `else` block of the source
is dead code.  The platform beep in the first branch is a side effect with
no bearing on the state and is not modelled. -/
def scroll_up (es : EditorState) (c : Cursor) (cs : CursorState)
    (rs : RenderState) : Option (Cursor × CursorState × RenderState) := do
  if c.row = 0 then
    if 0 < cs.scroll_y then
      return ({ c with row := c.row + 1 }, { cs with scroll_y := cs.scroll_y - 1 },
              { rs with modif_all := true })
    else
      return (c, cs, rs)
  else
    let sy ← rustSub cs.scroll_y 1
    let rm1 ← rustSub es.rows 1
    let c2 := if c.row ≠ rm1 then { c with row := c.row + 1 } else c
    return (c2, { cs with scroll_y := sy }, { rs with modif_all := true })

/-- `Cursor::adjust_column_vertical` (`src/input.rs` lines 66-107).  The
source begins with `assert!(*scroll_y < 134)` — a failing assertion is a
panic (`none`) — and then indexes `doc.inner_lines[*scroll_y + self.row]`
(a panic when out of range).  `(self.column as i32 + padding).try_into()
.unwrap_or(0)` maps a negative sum to `0`, which is exactly `Int.toNat`. -/
def adjust_column_vertical (doc : Document) (mods : Modifiers) (c : Cursor)
    (cs : CursorState) : Option (Cursor × CursorState) := do
  if cs.scroll_y < 134 then
    let curr_line ← doc.inner_lines.get? (cs.scroll_y + c.row)
    let p := leadingPadding curr_line
    let new_column : Nat :=
      if ¬ mods.control then
        ((c.column : Int) + ((p : Int) - (cs.last_padding : Int))).toNat
      else
        c.column
    let max_col := curr_line.length - 1
    let col2 := if cs.last_column then max_col else min max_col new_column
    return ({ c with column := col2 }, { cs with last_padding := p })
  else
    none

/-- `Cursor::adjust_column_start` (`src/input.rs` lines 111-137). -/
def adjust_column_start (doc : Document) (c : Cursor) (cs : CursorState) :
    Option (Cursor × CursorState) := do
  let curr_line ← doc.inner_lines.get? (cs.scroll_y + c.row)
  let p := leadingPadding curr_line
  return ({ c with column := p }, { cs with last_padding := p })

/-- `Cursor::adjust_column_end` (`src/input.rs` lines 141-166). -/
def adjust_column_end (doc : Document) (c : Cursor) (cs : CursorState) :
    Option (Cursor × CursorState) := do
  let curr_line ← doc.inner_lines.get? (cs.scroll_y + c.row)
  let p := leadingPadding curr_line
  return ({ c with column := curr_line.length - 1 },
          { cs with last_padding := p, last_column := false })

/-- `Cursor::adjust_column_random` (`src/input.rs` lines 171-196).  Note the
source condition is `max_col <= self.column` (not a strict comparison). -/
def adjust_column_random (doc : Document) (c : Cursor) (cs : CursorState) :
    Option (Cursor × CursorState) := do
  let curr_line ← doc.inner_lines.get? (cs.scroll_y + c.row)
  let p := leadingPadding curr_line
  let max_col := curr_line.length - 1
  if max_col ≤ c.column then
    return ({ c with column := max_col },
            { cs with last_padding := p, last_column := true })
  else
    return (c, { cs with last_padding := p })

/-- Forward space run of the Control+Right handler: the source loop
`while new_col <= max_col && curr_line.as_bytes()[new_col] == b' '`
(`src/input.rs` lines 472-477). -/
def skipSpacesFwd (line : List Nat) (max_col col : Nat) : Nat :=
  if col ≤ max_col ∧ line.getD col 0 = 32 then
    skipSpacesFwd line max_col (col + 1)
  else
    col
termination_by max_col + 1 - col
decreasing_by omega

/-- Forward word run of the Control+Right handler: the source loop
`while new_col < max_col && curr_line.as_bytes()[new_col] != b' '`
(`src/input.rs` lines 484-489). -/
def skipWordFwd (line : List Nat) (max_col col : Nat) : Nat :=
  if col < max_col ∧ line.getD col 0 ≠ 32 then
    skipWordFwd line max_col (col + 1)
  else
    col
termination_by max_col - col
decreasing_by omega

/-- Second forward space run of the Control+Right handler: the source loop
`while new_col < max_col && curr_line.as_bytes()[new_col] == b' '`
(`src/input.rs` lines 490-495). -/
def skipSpacesFwdStrict (line : List Nat) (max_col col : Nat) : Nat :=
  if col < max_col ∧ line.getD col 0 = 32 then
    skipSpacesFwdStrict line max_col (col + 1)
  else
    col
termination_by max_col - col
decreasing_by omega

/-- The `KeyCode::Right` arm of `process_keypress` (`src/input.rs` lines
427-515).  With no document loaded the whole arm is a no-op.  Otherwise the
source first indexes the current line, then performs the bounds check
`cursor.row == editor_state.doc_lines - cursor_state.scroll_y - 1` (raw
subtractions, potential panics) and returns early when it holds, then
handles the end-of-line, Control-word and plain cases. -/
def process_keypress_right (doc : Option Document) (mods : Modifiers)
    (c : Cursor) (es : EditorState) (cs : CursorState) (rs : RenderState) :
    Option (Cursor × CursorState × RenderState) := do
  match doc with
  | none => return (c, cs, rs)
  | some d =>
    let curr_line ← d.inner_lines.get? (cs.scroll_y + c.row)
    let max_col := curr_line.length - 1
    let t ← rustSub es.doc_lines cs.scroll_y
    let lim ← rustSub t 1
    if c.row = lim then
      return (c, cs, rs)
    else
      if c.column = max_col then
        let rs1 := { rs with last_cursor := some c }
        let (c1, cs1, rs2) ← move_down es c cs rs1
        let (c2, cs2) ← adjust_column_start d c1 cs1
        return (c2, cs2, rs2)
      else
        let rs1 := { rs with last_cursor := some c }
        if mods.control then
          let b ← curr_line.get? c.column
          let new_col :=
            if b = 32 then
              min max_col (skipSpacesFwd curr_line max_col c.column)
            else
              min max_col
                (skipSpacesFwdStrict curr_line max_col
                  (skipWordFwd curr_line max_col c.column))
          let cs2 := if new_col = max_col then { cs with last_column := true }
                     else cs
          return ({ c with column := new_col }, cs2, rs1)
        else
          let new_col := min max_col (c.column + 1)
          let cs2 := if new_col = max_col then { cs with last_column := true }
                     else cs
          return ({ c with column := new_col }, cs2, rs1)

/-- The `MouseEventKind::Up` arm of `process_keypress` (`src/input.rs` lines
660-689): translate terminal coordinates to buffer coordinates, place the
cursor there and run `adjust_column_random`; with no document the cursor is
forced to `(0, 0)`.  `doc_lines % rows` panics when `rows = 0`; both
`checked_sub(..).unwrap_or(0)` calls are truncated `Nat` subtraction. -/
def process_mouse_up (doc : Option Document) (mrow mcol : Nat) (c : Cursor)
    (es : EditorState) (cs : CursorState) (rs : RenderState) :
    Option (Cursor × CursorState × RenderState) := do
  let rs1 := { rs with last_cursor := some c }
  let m ← rustMod es.doc_lines es.rows
  let nrow := min mrow (m - 1)
  let ncol := min (mcol - 4) es.columns
  let c1 : Cursor := { column := ncol, row := nrow }
  match doc with
  | some d =>
    let (c2, cs2) ← adjust_column_random d c1 cs
    return (c2, cs2, rs1)
  | none =>
    return ({ column := 0, row := 0 }, cs, rs1)

/-- The scanning loop of `Document::new` (`src/text.rs` lines 31-69): walk
the byte array with cursor `i`, remembering the `start` index and `len` of
the line being accumulated, and emit a `(start, len)` pair at each `\r\n`
or `\n`.  The source's `i < bytes.len() - 1` lookahead guard (evaluated
under `i < bytes.len()`) is written as `i + 1 < bytes.length`.  Nothing is
emitted when the input ends without a terminator. -/
def docScan (bytes : List Nat) (start len i : Nat) : List (Nat × Nat) :=
  if i < bytes.length then
    if bytes.getD i 0 = 13 ∧ i + 1 < bytes.length ∧ bytes.getD (i + 1) 0 = 10 then
      (start, len) :: docScan bytes (i + 2) 0 (i + 2)
    else if bytes.getD i 0 = 10 then
      (start, len) :: docScan bytes (i + 1) 0 (i + 1)
    else
      docScan bytes start (len + 1) (i + 1)
  else
    []
termination_by bytes.length - i
decreasing_by all_goals omega

/-- `Document::new` (`src/text.rs` lines 19-85) minus the file read: the
emitted `(start, len)` pairs are materialised as the byte slices
`bytes[start..start + len]`, exactly as the `String::from_utf8_lossy`
loop of the source does. -/
def document_new (bytes : List Nat) : List (List Nat) :=
  (docScan bytes 0 0 0).map (fun p => (bytes.drop p.1).take p.2)

/-- Spec-side splitter, written from the specification's words: one line
per terminator-ended physical line, `\n` and `\r\n` stripped, a lone `\r`
kept as an ordinary byte; `cur` is the segment accumulated since the last
terminator.  An input exhausted with `cur` pending emits nothing for it. -/
def splitLinesAux (cur : List Nat) : List Nat → List (List Nat)
  | [] => []
  | b :: rest =>
    if b = 10 then
      cur :: splitLinesAux [] rest
    else if b = 13 ∧ rest.head? = some 10 then
      cur :: splitLinesAux [] rest.tail
    else
      splitLinesAux (cur ++ [b]) rest
termination_by l => l.length
decreasing_by all_goals (simp [List.length_tail]; try omega)

/-- Spec-side view of document loading: split the byte stream at `\n` /
`\r\n` terminators. -/
def splitLines (bytes : List Nat) : List (List Nat) :=
  splitLinesAux [] bytes

/-- Length of the leading run of spaces of a byte list. -/
def spaceRun (l : List Nat) : Nat :=
  (l.takeWhile (fun b => b == 32)).length

/-- Length of the leading run of non-space bytes of a byte list. -/
def wordRun (l : List Nat) : Nat :=
  (l.takeWhile (fun b => ! (b == 32))).length

/-- Spec-side description of the Control+Right word movement, written from
the specification's words: if the character under the cursor is a space,
advance through the run of spaces; otherwise advance through the run of
non-spaces and then through the following run of spaces; in both cases the
result is bounded by the line's last index. -/
def wordForwardSpec (ln : List Nat) (col : Nat) : Nat :=
  let maxCol := ln.length - 1
  if ln.getD col 0 = 32 then
    min maxCol (col + spaceRun (ln.drop col))
  else
    min maxCol (col + wordRun (ln.drop col) +
      spaceRun (ln.drop (col + wordRun (ln.drop col))))

/-- Spec-side description of the vertical column adjustment, written from
the specification's words: snap to the last valid index whenever
`last_column` is set; otherwise with Control the column is preserved except
for clamping; otherwise shift the column by `p - last_padding` and clamp to
`[0, len(line) - 1]` (`0` for an empty line). -/
def adjustColVerticalSpec (line : List Nat) (ctrl lastCol : Bool)
    (column lastPad : Nat) : Nat :=
  let p := leadingPadding line
  let maxCol := line.length - 1
  if lastCol then maxCol
  else if ctrl then min column maxCol
  else min maxCol (((column : Int) + (p : Int) - (lastPad : Int)).toNat)

/-- C1: the core is not panic-free.  `scroll_up` on the reachable state
"empty document, cursor at viewport row 1, no scrolling yet" takes the
always-true `scroll_y >= 0` branch and executes `*scroll_y -= 1` on the
value 0, an underflow panic; and `adjust_column_vertical` fails its leftover
`assert!(*scroll_y < 134)` on any document scrolled to line 134 even though
the cursor rests on a valid line. -/
theorem scroll_up_underflow_code_bug :
    scroll_up ⟨0, true, 2, 80⟩ ⟨0, 1⟩ ⟨false, 0, 0⟩ ⟨none, false, none, false⟩
      = none ∧
    134 + 0 < (Document.mk (List.replicate 135 [97])).inner_lines.length ∧
    adjust_column_vertical ⟨List.replicate 135 [97]⟩ ⟨false, false⟩ ⟨0, 0⟩
      ⟨false, 0, 134⟩ = none := by
  refine ⟨rfl, by simp, rfl⟩

/-- C2 counterexample: `scroll_up`, applied to a state satisfying
`0 ≤ scroll_y ≤ doc_lines` and `0 ≤ cursor.row < rows` (here `scroll_y = 0`,
`doc_lines = 5`, `row = 1`, `rows = 3`), does not produce a state at all:
the unsigned subtraction `*scroll_y -= 1` underflows, so the operation does
not preserve the claimed bounds. -/
theorem scroll_up_bounds_counterexample :
    (0 : Nat) ≤ 5 ∧ (1 : Nat) < 3 ∧
    scroll_up ⟨5, true, 3, 80⟩ ⟨0, 1⟩ ⟨false, 0, 0⟩ ⟨none, false, none, false⟩
      = none := by
  exact ⟨by decide, by decide, rfl⟩

/-- C3 counterexample: from `scroll_y = 0`, `rows = 10`, `doc_lines = 10`
(so `scroll_y + rows ≤ doc_lines` holds), `page_down` takes its full-shift
branch and yields `scroll_y = 10`, for which `scroll_y + rows = 20 > 10 =
doc_lines`: the claimed invariant is not preserved. -/
theorem page_down_window_counterexample :
    (0 : Nat) + 10 ≤ 10 ∧
    page_down ⟨10, true, 10, 80⟩ ⟨0, 0⟩ ⟨false, 0, 0⟩ ⟨none, false, none, false⟩
      = some (⟨0, 0⟩, ⟨false, 0, 10⟩, ⟨none, true, none, false⟩) ∧
    ¬ ((10 : Nat) + 10 ≤ 10) := by
  exact ⟨by decide, rfl, by decide⟩

/-- C4 counterexample: with the cursor resting on the valid line 134 of a
135-line document, `adjust_column_vertical` does not perform the described
column adjustment at all — it aborts on the leftover
`assert!(*scroll_y < 134)`. -/
theorem adjust_column_vertical_assert_counterexample :
    134 + 0 < (Document.mk (List.replicate 135 [32, 97])).inner_lines.length ∧
    adjust_column_vertical ⟨List.replicate 135 [32, 97]⟩ ⟨false, false⟩
      ⟨1, 0⟩ ⟨false, 1, 134⟩ = none := by
  exact ⟨by simp, rfl⟩

/-- C7 counterexample: on a one-line document containing
`"  hello world"`, with the cursor at column 0 (not the last column), a
Control+Right event is discarded by the bounds check
`cursor.row == doc_lines - scroll_y - 1` (the cursor is on the last
document line) and the column stays 0 instead of advancing to 2. -/
theorem word_forward_last_line_counterexample :
    process_keypress_right
      (some ⟨[[32, 32, 104, 101, 108, 108, 111, 32, 119, 111, 114, 108, 100]]⟩)
      ⟨true, false⟩ ⟨0, 0⟩ ⟨1, true, 5, 80⟩ ⟨false, 0, 0⟩
      ⟨none, false, none, false⟩
      = some (⟨0, 0⟩, ⟨false, 0, 0⟩, ⟨none, false, none, false⟩) ∧
    (0 : Nat) ≠ 2 := by
  exact ⟨rfl, by decide⟩

/-- C8 counterexample: on the line `"ab"` with the cursor exactly at the
last valid index (column 1), no clamping is needed and none occurs, yet
`adjust_column_random` still sets `last_column := true` because the source
condition is `max_col <= self.column`, not a strict comparison — refuting
"sets `last_column = true` ... only when the column strictly exceeded the
line's last index". -/
theorem adjust_column_random_iff_counterexample :
    adjust_column_random ⟨[[97, 98]]⟩ ⟨1, 0⟩ ⟨false, 0, 0⟩
      = some (⟨1, 0⟩, ⟨true, 0, 0⟩) ∧
    (Cursor.mk 1 0).column = [97, 98].length - 1 := by
  exact ⟨rfl, rfl⟩

/-- C9 counterexample: the byte sequence `"a"` (no trailing terminator) has
one physical line, but `Document::new` emits line delimiters only when it
sees a terminator and never flushes the pending segment, so the resulting
`lines` vector is empty instead of `["a"]`. -/
theorem document_new_drops_final_line_counterexample :
    document_new [97] = [] ∧ ([] : List (List Nat)) ≠ [[97]] := by
  constructor
  · simp [document_new, docScan]
  · decide

theorem rustSub_eq_some {a b : Nat} (h : b ≤ a) : rustSub a b = some (a - b) := by
  simp [rustSub, h]

theorem rustMod_eq_some {a b : Nat} (h : 0 < b) : rustMod a b = some (a % b) := by
  simp [rustMod, Nat.pos_iff_ne_zero.mp h]

/-- C2 (amended): under `scroll_y ≤ doc_lines` and `cursor.row < rows`,
`move_up`, `page_up` and `page_down` individually preserve
`scroll_y ≤ doc_lines` and `cursor.row < rows`; `move_down` and
`scroll_down` do so under the additional hypothesis
`scroll_y + rows ≤ doc_lines`, and `scroll_up` under the additional
hypotheses `1 ≤ scroll_y` and `2 ≤ rows` — without those extra hypotheses
`move_down`/`scroll_down` can panic on the raw subtractions
`doc_lines - rows` and `doc_lines - scroll_y - 1`, and `scroll_up` can
underflow `scroll_y` or push the row to `rows`. -/
theorem nav_ops_bounds_preserved (es : EditorState) (c : Cursor)
    (cs : CursorState) (rs : RenderState)
    (hsy : cs.scroll_y ≤ es.doc_lines) (hrow : c.row < es.rows) :
    ((move_up c cs rs).2.1.scroll_y ≤ es.doc_lines ∧
      (move_up c cs rs).1.row < es.rows) ∧
    ((page_up es c cs rs).2.1.scroll_y ≤ es.doc_lines ∧
      (page_up es c cs rs).1.row < es.rows) ∧
    (∃ c' cs' rs', page_down es c cs rs = some (c', cs', rs') ∧
      cs'.scroll_y ≤ es.doc_lines ∧ c'.row < es.rows) ∧
    (cs.scroll_y + es.rows ≤ es.doc_lines →
      ∃ c' cs' rs', move_down es c cs rs = some (c', cs', rs') ∧
        cs'.scroll_y ≤ es.doc_lines ∧ c'.row < es.rows) ∧
    (cs.scroll_y + es.rows ≤ es.doc_lines →
      ∃ c' cs' rs', scroll_down es c cs rs = some (c', cs', rs') ∧
        cs'.scroll_y ≤ es.doc_lines ∧ c'.row < es.rows) ∧
    (1 ≤ cs.scroll_y → 2 ≤ es.rows →
      ∃ c' cs' rs', scroll_up es c cs rs = some (c', cs', rs') ∧
        cs'.scroll_y ≤ es.doc_lines ∧ c'.row < es.rows) := by
  have hrpos : 0 < es.rows := Nat.lt_of_le_of_lt (Nat.zero_le _) hrow
  refine ⟨?_, ?_, ?_, ?_, ?_, ?_⟩
  · -- move_up
    by_cases h1 : c.row = 0 <;> by_cases h2 : 0 < cs.scroll_y <;>
      simp [move_up, h1, h2] <;> omega
  · -- page_up
    by_cases h1 : es.rows ≤ cs.scroll_y <;> simp [page_up, h1] <;> omega
  · -- page_down
    by_cases h1 : cs.scroll_y + es.rows ≤ es.doc_lines
    · exact ⟨c, { cs with scroll_y := cs.scroll_y + es.rows },
        { rs with modif_all := true }, by simp [page_down, h1], h1, hrow⟩
    · have hm : es.doc_lines % es.rows < es.rows := Nat.mod_lt _ hrpos
      exact ⟨{ c with row := es.doc_lines % es.rows - 1 }, cs,
        { rs with last_cursor := some c },
        by simp [page_down, h1, rustMod_eq_some hrpos], hsy,
        by show es.doc_lines % es.rows - 1 < es.rows; omega⟩
  · -- move_down
    intro h2
    have hdr : es.rows ≤ es.doc_lines := by omega
    by_cases h1 : c.row = es.rows - 1
    · by_cases h3 : cs.scroll_y < es.doc_lines - es.rows
      · exact ⟨c, { cs with scroll_y := cs.scroll_y + 1 },
          { rs with modif_all := true },
          by simp [move_down, rustSub_eq_some hrpos, rustSub_eq_some hdr, h1, h3],
          by show cs.scroll_y + 1 ≤ es.doc_lines; omega, hrow⟩
      · exact ⟨c, cs, rs,
          by simp [move_down, rustSub_eq_some hrpos, rustSub_eq_some hdr, h1, h3],
          hsy, hrow⟩
    · have hlt : cs.scroll_y < es.doc_lines := by omega
      have ht1 : (1 : Nat) ≤ es.doc_lines - cs.scroll_y := by omega
      by_cases h4 : cs.scroll_y ≠ 0 ∨ es.doc_lines ≠ 0
      · by_cases h5 : c.row < es.doc_lines - cs.scroll_y - 1
        · exact ⟨{ c with row := c.row + 1 }, cs,
            { rs with last_cursor := some c },
            by simp [move_down, rustSub_eq_some hrpos, rustSub_eq_some hlt.le,
              rustSub_eq_some ht1, h1, h4, h5],
            hsy, by show c.row + 1 < es.rows; omega⟩
        · exact ⟨c, cs, rs,
            by simp [move_down, rustSub_eq_some hrpos, rustSub_eq_some hlt.le,
              rustSub_eq_some ht1, h1, h4, h5],
            hsy, hrow⟩
      · exact ⟨c, cs, rs,
          by simp [move_down, rustSub_eq_some hrpos, h1, h4], hsy, hrow⟩
  · -- scroll_down
    intro h2
    have hlt : cs.scroll_y < es.doc_lines := by omega
    have ht1 : (1 : Nat) ≤ es.doc_lines - cs.scroll_y := by omega
    have h4 : cs.scroll_y ≠ 0 ∨ es.doc_lines ≠ 0 := by omega
    by_cases h5 : c.row < es.doc_lines - cs.scroll_y - 1
    · by_cases h6 : c.row = 0
      · have h50 : 0 < es.doc_lines - cs.scroll_y - 1 := by omega
        exact ⟨c, { cs with scroll_y := cs.scroll_y + 1 },
          { rs with modif_all := true },
          by simp [scroll_down, rustSub_eq_some hlt.le, rustSub_eq_some ht1,
            h4, h5, h6, h50],
          by show cs.scroll_y + 1 ≤ es.doc_lines; omega, hrow⟩
      · exact ⟨{ c with row := c.row - 1 }, { cs with scroll_y := cs.scroll_y + 1 },
          { rs with modif_all := true },
          by simp [scroll_down, rustSub_eq_some hlt.le, rustSub_eq_some ht1,
            h4, h5, h6],
          by show cs.scroll_y + 1 ≤ es.doc_lines; omega,
          by show c.row - 1 < es.rows; omega⟩
    · exact ⟨c, cs, rs,
        by simp [scroll_down, rustSub_eq_some hlt.le, rustSub_eq_some ht1, h4, h5],
        hsy, hrow⟩
  · -- scroll_up
    intro h2 h3
    by_cases h1 : c.row = 0
    · exact ⟨{ c with row := c.row + 1 }, { cs with scroll_y := cs.scroll_y - 1 },
        { rs with modif_all := true },
        by simp [scroll_up, h1, Nat.lt_of_lt_of_le Nat.zero_lt_one h2],
        by show cs.scroll_y - 1 ≤ es.doc_lines; omega,
        by show c.row + 1 < es.rows; omega⟩
    · by_cases h6 : c.row = es.rows - 1
      · have h16 : ¬ (es.rows - 1 = 0) := by omega
        exact ⟨c, { cs with scroll_y := cs.scroll_y - 1 },
          { rs with modif_all := true },
          by simp [scroll_up, rustSub_eq_some h2,
            rustSub_eq_some (Nat.one_le_of_lt h3), h1, h6, h16],
          by show cs.scroll_y - 1 ≤ es.doc_lines; omega, hrow⟩
      · exact ⟨{ c with row := c.row + 1 }, { cs with scroll_y := cs.scroll_y - 1 },
          { rs with modif_all := true },
          by simp [scroll_up, rustSub_eq_some h2,
            rustSub_eq_some (Nat.one_le_of_lt h3), h1, h6],
          by show cs.scroll_y - 1 ≤ es.doc_lines; omega,
          by show c.row + 1 < es.rows; omega⟩

/-- Witness for `nav_ops_bounds_preserved` at `doc_lines = 20`, `rows = 5`,
`scroll_y = 3`, `row = 2`. -/
theorem nav_ops_bounds_preserved_witness :
    (3 : Nat) ≤ 20 ∧ (2 : Nat) < 5 ∧
    (((move_up ⟨0, 2⟩ ⟨false, 0, 3⟩ ⟨none, false, none, false⟩).2.1.scroll_y ≤ 20 ∧
      (move_up ⟨0, 2⟩ ⟨false, 0, 3⟩ ⟨none, false, none, false⟩).1.row < 5) ∧
     ((page_up ⟨20, true, 5, 80⟩ ⟨0, 2⟩ ⟨false, 0, 3⟩
        ⟨none, false, none, false⟩).2.1.scroll_y ≤ 20 ∧
      (page_up ⟨20, true, 5, 80⟩ ⟨0, 2⟩ ⟨false, 0, 3⟩
        ⟨none, false, none, false⟩).1.row < 5) ∧
     (∃ c' cs' rs', page_down ⟨20, true, 5, 80⟩ ⟨0, 2⟩ ⟨false, 0, 3⟩
        ⟨none, false, none, false⟩ = some (c', cs', rs') ∧
        cs'.scroll_y ≤ 20 ∧ c'.row < 5) ∧
     (3 + 5 ≤ 20 →
      ∃ c' cs' rs', move_down ⟨20, true, 5, 80⟩ ⟨0, 2⟩ ⟨false, 0, 3⟩
        ⟨none, false, none, false⟩ = some (c', cs', rs') ∧
        cs'.scroll_y ≤ 20 ∧ c'.row < 5) ∧
     (3 + 5 ≤ 20 →
      ∃ c' cs' rs', scroll_down ⟨20, true, 5, 80⟩ ⟨0, 2⟩ ⟨false, 0, 3⟩
        ⟨none, false, none, false⟩ = some (c', cs', rs') ∧
        cs'.scroll_y ≤ 20 ∧ c'.row < 5) ∧
     (1 ≤ 3 → 2 ≤ 5 →
      ∃ c' cs' rs', scroll_up ⟨20, true, 5, 80⟩ ⟨0, 2⟩ ⟨false, 0, 3⟩
        ⟨none, false, none, false⟩ = some (c', cs', rs') ∧
        cs'.scroll_y ≤ 20 ∧ c'.row < 5)) :=
  ⟨by decide, by decide,
    nav_ops_bounds_preserved ⟨20, true, 5, 80⟩ ⟨0, 2⟩ ⟨false, 0, 3⟩
      ⟨none, false, none, false⟩ (by decide) (by decide)⟩

/-- C3 (amended): the invariant that survives the four scroll operations is
`scroll_y ≤ doc_lines`, not `scroll_y + rows ≤ doc_lines` (the latter is
destroyed by `page_down`'s own guard, see the counterexample).  Starting
from `cursor.row < rows` and `scroll_y + rows ≤ doc_lines`, `page_up`,
`page_down` and `scroll_down` complete and leave `scroll_y ≤ doc_lines`;
`scroll_up` does too provided additionally `0 < scroll_y` or `cursor.row = 0`
(otherwise it panics on `*scroll_y -= 1`). -/
theorem scroll_ops_scroll_y_bounded (es : EditorState) (c : Cursor)
    (cs : CursorState) (rs : RenderState)
    (hrow : c.row < es.rows) (h : cs.scroll_y + es.rows ≤ es.doc_lines) :
    ((page_up es c cs rs).2.1.scroll_y ≤ es.doc_lines) ∧
    (∃ c' cs' rs', page_down es c cs rs = some (c', cs', rs') ∧
      cs'.scroll_y ≤ es.doc_lines) ∧
    (∃ c' cs' rs', scroll_down es c cs rs = some (c', cs', rs') ∧
      cs'.scroll_y ≤ es.doc_lines) ∧
    (0 < cs.scroll_y ∨ c.row = 0 →
      ∃ c' cs' rs', scroll_up es c cs rs = some (c', cs', rs') ∧
        cs'.scroll_y ≤ es.doc_lines) := by
  have hrpos : 0 < es.rows := Nat.lt_of_le_of_lt (Nat.zero_le _) hrow
  have hlt : cs.scroll_y < es.doc_lines := by omega
  have ht1 : (1 : Nat) ≤ es.doc_lines - cs.scroll_y := by omega
  refine ⟨?_, ?_, ?_, ?_⟩
  · by_cases h1 : es.rows ≤ cs.scroll_y <;> (simp [page_up, h1]; try omega)
  · exact ⟨c, { cs with scroll_y := cs.scroll_y + es.rows },
      { rs with modif_all := true }, by simp [page_down, h],
      by show cs.scroll_y + es.rows ≤ es.doc_lines; omega⟩
  · have h4 : cs.scroll_y ≠ 0 ∨ es.doc_lines ≠ 0 := by omega
    by_cases h5 : c.row < es.doc_lines - cs.scroll_y - 1
    · by_cases h6 : c.row = 0
      · have h50 : 0 < es.doc_lines - cs.scroll_y - 1 := by omega
        exact ⟨c, { cs with scroll_y := cs.scroll_y + 1 },
          { rs with modif_all := true },
          by simp [scroll_down, rustSub_eq_some hlt.le, rustSub_eq_some ht1,
            h4, h5, h6, h50],
          by show cs.scroll_y + 1 ≤ es.doc_lines; omega⟩
      · exact ⟨{ c with row := c.row - 1 }, { cs with scroll_y := cs.scroll_y + 1 },
          { rs with modif_all := true },
          by simp [scroll_down, rustSub_eq_some hlt.le, rustSub_eq_some ht1,
            h4, h5, h6],
          by show cs.scroll_y + 1 ≤ es.doc_lines; omega⟩
    · exact ⟨c, cs, rs,
        by simp [scroll_down, rustSub_eq_some hlt.le, rustSub_eq_some ht1, h4, h5],
        by omega⟩
  · intro hdisj
    by_cases h1 : c.row = 0
    · by_cases h2 : 0 < cs.scroll_y
      · exact ⟨{ c with row := c.row + 1 }, { cs with scroll_y := cs.scroll_y - 1 },
          { rs with modif_all := true }, by simp [scroll_up, h1, h2],
          by show cs.scroll_y - 1 ≤ es.doc_lines; omega⟩
      · exact ⟨c, cs, rs, by simp [scroll_up, h1, h2], by omega⟩
    · have h2 : 0 < cs.scroll_y := by
        rcases hdisj with h2 | h0
        · exact h2
        · exact absurd h0 h1
      by_cases h6 : c.row = es.rows - 1
      · have h16 : ¬ (es.rows - 1 = 0) := by omega
        exact ⟨c, { cs with scroll_y := cs.scroll_y - 1 },
          { rs with modif_all := true },
          by simp [scroll_up, rustSub_eq_some h2, rustSub_eq_some hrpos,
            h1, h6, h16],
          by show cs.scroll_y - 1 ≤ es.doc_lines; omega⟩
      · exact ⟨{ c with row := c.row + 1 }, { cs with scroll_y := cs.scroll_y - 1 },
          { rs with modif_all := true },
          by simp [scroll_up, rustSub_eq_some h2, rustSub_eq_some hrpos, h1, h6],
          by show cs.scroll_y - 1 ≤ es.doc_lines; omega⟩

/-- Witness for `scroll_ops_scroll_y_bounded` at `doc_lines = 20`,
`rows = 5`, `scroll_y = 3`, `row = 2`. -/
theorem scroll_ops_scroll_y_bounded_witness :
    (2 : Nat) < 5 ∧ (3 : Nat) + 5 ≤ 20 ∧
    (((page_up ⟨20, true, 5, 80⟩ ⟨0, 2⟩ ⟨false, 0, 3⟩
        ⟨none, false, none, false⟩).2.1.scroll_y ≤ 20) ∧
     (∃ c' cs' rs', page_down ⟨20, true, 5, 80⟩ ⟨0, 2⟩ ⟨false, 0, 3⟩
        ⟨none, false, none, false⟩ = some (c', cs', rs') ∧ cs'.scroll_y ≤ 20) ∧
     (∃ c' cs' rs', scroll_down ⟨20, true, 5, 80⟩ ⟨0, 2⟩ ⟨false, 0, 3⟩
        ⟨none, false, none, false⟩ = some (c', cs', rs') ∧ cs'.scroll_y ≤ 20) ∧
     ((0 : Nat) < 3 ∨ (2 : Nat) = 0 →
      ∃ c' cs' rs', scroll_up ⟨20, true, 5, 80⟩ ⟨0, 2⟩ ⟨false, 0, 3⟩
        ⟨none, false, none, false⟩ = some (c', cs', rs') ∧ cs'.scroll_y ≤ 20)) :=
  ⟨by decide, by decide,
    scroll_ops_scroll_y_bounded ⟨20, true, 5, 80⟩ ⟨0, 2⟩ ⟨false, 0, 3⟩
      ⟨none, false, none, false⟩ (by decide) (by decide)⟩

/-- C4 (amended): whenever the leftover `assert!(*scroll_y < 134)` passes
and the cursor rests on a valid line, `adjust_column_vertical` computes
exactly the column described by the specification (shift by
`p - last_padding` without Control, preserve except clamping with Control,
snap to the last valid index whenever `last_column` is set, always clamp to
`[0, len - 1]`) and stores the new padding; without the `scroll_y < 134`
hypothesis the claim is false (see the counterexample). -/
theorem adjust_column_vertical_spec_correct (d : Document) (mods : Modifiers)
    (c : Cursor) (cs : CursorState) (line : List Nat)
    (hassert : cs.scroll_y < 134)
    (hline : d.inner_lines.get? (cs.scroll_y + c.row) = some line) :
    adjust_column_vertical d mods c cs
      = some ({ c with column := (adjustColVerticalSpec line mods.control
                  cs.last_column c.column cs.last_padding) },
              { cs with last_padding := leadingPadding line }) := by
  have hline2 : d.inner_lines[cs.scroll_y + c.row]? = some line := by
    simpa using hline
  cases hlc : cs.last_column <;> cases hctrl : mods.control <;>
    simp [adjust_column_vertical, adjustColVerticalSpec, hassert, hline2,
      hlc, hctrl] <;>
    omega

/-- Witness for `adjust_column_vertical_spec_correct`: the specification's
own example — the cursor left line `"    foo"` at column 6 with
`last_padding = 4` and lands on line `"  bar"`; without Control the new
column is 4. -/
theorem adjust_column_vertical_spec_correct_witness :
    (0 : Nat) < 134 ∧
    (Document.mk [[32, 32, 98, 97, 114]]).inner_lines.get? (0 + (0 : Nat))
      = some [32, 32, 98, 97, 114] ∧
    adjust_column_vertical ⟨[[32, 32, 98, 97, 114]]⟩ ⟨false, false⟩ ⟨6, 0⟩
      ⟨false, 4, 0⟩
      = some (⟨adjustColVerticalSpec [32, 32, 98, 97, 114] false false 6 4, 0⟩,
              ⟨false, leadingPadding [32, 32, 98, 97, 114], 0⟩) ∧
    adjustColVerticalSpec [32, 32, 98, 97, 114] false false 6 4 = 4 :=
  ⟨by decide, by decide,
    adjust_column_vertical_spec_correct ⟨[[32, 32, 98, 97, 114]]⟩
      ⟨false, false⟩ ⟨6, 0⟩ ⟨false, 4, 0⟩ [32, 32, 98, 97, 114]
      (by decide) (by decide),
    by decide⟩

/-- C5: from any state with valid bounds, `page_down` completes, and
running `page_up` on its result gives a `scroll_y` at distance at most
`rows` from the original, with exact equality whenever the starting state
satisfies `scroll_y + rows ≤ doc_lines` (the condition under which
`page_down` takes its full-shift branch, after which `page_up` necessarily
takes its own full-shift branch). -/
theorem page_down_up_roundtrip (es : EditorState) (c : Cursor)
    (cs : CursorState) (rs : RenderState)
    (hrow : c.row < es.rows) (hsy : cs.scroll_y ≤ es.doc_lines) :
    ∃ c1 cs1 rs1, page_down es c cs rs = some (c1, cs1, rs1) ∧
      ((page_up es c1 cs1 rs1).2.1.scroll_y ≤ cs.scroll_y + es.rows ∧
        cs.scroll_y ≤ (page_up es c1 cs1 rs1).2.1.scroll_y + es.rows) ∧
      (cs.scroll_y + es.rows ≤ es.doc_lines →
        (page_up es c1 cs1 rs1).2.1.scroll_y = cs.scroll_y) := by
  have hrpos : 0 < es.rows := Nat.lt_of_le_of_lt (Nat.zero_le _) hrow
  by_cases h1 : cs.scroll_y + es.rows ≤ es.doc_lines
  · refine ⟨c, { cs with scroll_y := cs.scroll_y + es.rows },
      { rs with modif_all := true }, by simp [page_down, h1], ?_, fun _ => ?_⟩
    · have : es.rows ≤ cs.scroll_y + es.rows := by omega
      simp [page_up, this]
      try omega
    · have : es.rows ≤ cs.scroll_y + es.rows := by omega
      simp [page_up, this]
  · refine ⟨{ c with row := es.doc_lines % es.rows - 1 }, cs,
      { rs with last_cursor := some c },
      by simp [page_down, h1, rustMod_eq_some hrpos], ?_, fun hcon => ?_⟩
    · by_cases h2 : es.rows ≤ cs.scroll_y <;> simp [page_up, h2] <;> omega
    · exact absurd hcon h1

/-- Witness for `page_down_up_roundtrip` at `doc_lines = 20`, `rows = 5`,
`scroll_y = 3`, `row = 2`. -/
theorem page_down_up_roundtrip_witness :
    (2 : Nat) < 5 ∧ (3 : Nat) ≤ 20 ∧
    (∃ c1 cs1 rs1, page_down ⟨20, true, 5, 80⟩ ⟨0, 2⟩ ⟨false, 0, 3⟩
        ⟨none, false, none, false⟩ = some (c1, cs1, rs1) ∧
      ((page_up ⟨20, true, 5, 80⟩ c1 cs1 rs1).2.1.scroll_y ≤ 3 + 5 ∧
        3 ≤ (page_up ⟨20, true, 5, 80⟩ c1 cs1 rs1).2.1.scroll_y + 5) ∧
      (3 + 5 ≤ 20 →
        (page_up ⟨20, true, 5, 80⟩ c1 cs1 rs1).2.1.scroll_y = 3)) :=
  ⟨by decide, by decide,
    page_down_up_roundtrip ⟨20, true, 5, 80⟩ ⟨0, 2⟩ ⟨false, 0, 3⟩
      ⟨none, false, none, false⟩ (by decide) (by decide)⟩

/-- C6: a mouse button release at terminal `(row, col)` moves the cursor to
`doc_row = min(row, (doc_lines % rows).saturating_sub(1))`,
`doc_col = min(col.saturating_sub(4), columns)` and then runs
`adjust_column_random`; with no document loaded the cursor becomes `(0, 0)`.
The last conjunct is the specification's concrete example: a click at
terminal row 500 on a 10-line document with `rows = 20` yields document row
9, a valid in-range row. -/
theorem mouse_up_maps_click (d : Document) (mrow mcol : Nat) (c : Cursor)
    (es : EditorState) (cs : CursorState) (rs : RenderState)
    (h : 1 ≤ es.rows) :
    (process_mouse_up (some d) mrow mcol c es cs rs
      = (adjust_column_random d
          ⟨min (mcol - 4) es.columns, min mrow (es.doc_lines % es.rows - 1)⟩
          cs).bind
          (fun p => some (p.1, p.2, { rs with last_cursor := some c }))) ∧
    (process_mouse_up none mrow mcol c es cs rs
      = some (⟨0, 0⟩, cs, { rs with last_cursor := some c })) ∧
    (process_mouse_up (some ⟨List.replicate 10 [104, 105]⟩) 500 2 ⟨0, 0⟩
        ⟨10, true, 20, 76⟩ ⟨false, 0, 0⟩ ⟨none, false, none, false⟩
      = some (⟨0, 9⟩, ⟨false, 0, 0⟩, ⟨none, false, some ⟨0, 0⟩, false⟩) ∧
      9 < 10) := by
  have hpos : es.rows ≠ 0 := by omega
  refine ⟨?_, ?_, by decide, by decide⟩
  · cases hadj : adjust_column_random d
      ⟨min (mcol - 4) es.columns, min mrow (es.doc_lines % es.rows - 1)⟩ cs with
    | none => simp [process_mouse_up, rustMod, hpos, hadj]
    | some p =>
      obtain ⟨c2, cs2⟩ := p
      simp [process_mouse_up, rustMod, hpos, hadj]
  · simp [process_mouse_up, rustMod, hpos]

/-- Witness for `mouse_up_maps_click` at `rows = 20` with a two-line
document. -/
theorem mouse_up_maps_click_witness :
    (1 : Nat) ≤ 20 ∧
    ((process_mouse_up (some ⟨[[97], [98, 99]]⟩) 7 9 ⟨5, 5⟩ ⟨2, true, 20, 76⟩
        ⟨false, 0, 0⟩ ⟨none, false, none, false⟩
      = (adjust_column_random ⟨[[97], [98, 99]]⟩
          ⟨min (9 - 4) 76, min 7 (2 % 20 - 1)⟩ ⟨false, 0, 0⟩).bind
          (fun p => some (p.1, p.2,
            { modif_row := none, modif_all := false,
              last_cursor := some ⟨5, 5⟩, modif_status := false }))) ∧
    (process_mouse_up none 7 9 ⟨5, 5⟩ ⟨2, true, 20, 76⟩ ⟨false, 0, 0⟩
        ⟨none, false, none, false⟩
      = some (⟨0, 0⟩, ⟨false, 0, 0⟩,
          { modif_row := none, modif_all := false,
            last_cursor := some ⟨5, 5⟩, modif_status := false })) ∧
    (process_mouse_up (some ⟨List.replicate 10 [104, 105]⟩) 500 2 ⟨0, 0⟩
        ⟨10, true, 20, 76⟩ ⟨false, 0, 0⟩ ⟨none, false, none, false⟩
      = some (⟨0, 9⟩, ⟨false, 0, 0⟩, ⟨none, false, some ⟨0, 0⟩, false⟩) ∧
      9 < 10)) :=
  ⟨by decide,
    mouse_up_maps_click ⟨[[97], [98, 99]]⟩ 7 9 ⟨5, 5⟩ ⟨2, true, 20, 76⟩
      ⟨false, 0, 0⟩ ⟨none, false, none, false⟩ (by decide)⟩

/-- C8 (amended): `adjust_column_random` always stores the line's
leading-whitespace count in `last_padding`; it clamps the column and sets
`last_column := true` exactly when `max_col ≤ column` — that is, also when
the column is exactly at the line's last valid index, not only when it
strictly exceeds it (see the counterexample for the "only on strict excess"
reading); when `column < max_col` both the column and `last_column` are
left unchanged. -/
theorem adjust_column_random_spec (d : Document) (c : Cursor)
    (cs : CursorState) (line : List Nat)
    (hline : d.inner_lines.get? (cs.scroll_y + c.row) = some line) :
    (line.length - 1 ≤ c.column →
      adjust_column_random d c cs
        = some ({ c with column := line.length - 1 },
            { cs with last_padding := leadingPadding line,
                      last_column := true })) ∧
    (c.column < line.length - 1 →
      adjust_column_random d c cs
        = some (c, { cs with last_padding := leadingPadding line })) := by
  have hline2 : d.inner_lines[cs.scroll_y + c.row]? = some line := by
    simpa using hline
  constructor
  · intro hcl
    simp [adjust_column_random, hline2, hcl]
    exact fun h => absurd hcl (by omega)
  · intro hcl
    simp [adjust_column_random, hline2, Nat.not_le.mpr hcl, Nat.le_of_lt hcl]
    exact fun h => absurd hcl (by omega)

/-- Witness for `adjust_column_random_spec` on the line `"abcd"` with the
cursor at column 1 (within range, unchanged) — instantiating both
implications, the first one vacuously. -/
theorem adjust_column_random_spec_witness :
    (Document.mk [[97, 98, 99, 100]]).inner_lines.get? (0 + (0 : Nat))
      = some [97, 98, 99, 100] ∧
    (([97, 98, 99, 100] : List Nat).length - 1 ≤ 1 →
      adjust_column_random ⟨[[97, 98, 99, 100]]⟩ ⟨1, 0⟩ ⟨false, 7, 0⟩
        = some (⟨[97, 98, 99, 100].length - 1, 0⟩,
            ⟨true, leadingPadding [97, 98, 99, 100], 0⟩)) ∧
    ((1 : Nat) < ([97, 98, 99, 100] : List Nat).length - 1 →
      adjust_column_random ⟨[[97, 98, 99, 100]]⟩ ⟨1, 0⟩ ⟨false, 7, 0⟩
        = some (⟨1, 0⟩, ⟨false, leadingPadding [97, 98, 99, 100], 0⟩)) :=
  ⟨by decide,
    adjust_column_random_spec ⟨[[97, 98, 99, 100]]⟩ ⟨1, 0⟩ ⟨false, 7, 0⟩
      [97, 98, 99, 100] (by decide)⟩

/-- C10: when the document is loaded and the cursor sits on the last
document line (`scroll_y + row + 1 = doc_lines`, with `doc_lines` the
actual line count), a Right key event — with any modifier set, hence both
plain and Control, and regardless of the cursor's column — is discarded by
the early bounds check and leaves `Cursor`, `CursorState` and `RenderState`
completely unchanged. -/
theorem right_key_last_line_noop (d : Document) (mods : Modifiers)
    (c : Cursor) (es : EditorState) (cs : CursorState) (rs : RenderState)
    (hdl : es.doc_lines = d.inner_lines.length)
    (hlast : cs.scroll_y + c.row + 1 = es.doc_lines) :
    process_keypress_right (some d) mods c es cs rs = some (c, cs, rs) := by
  have hidx : cs.scroll_y + c.row < d.inner_lines.length := by omega
  have hline2 : d.inner_lines[cs.scroll_y + c.row]?
      = some (d.inner_lines[cs.scroll_y + c.row]) :=
    List.getElem?_eq_getElem hidx
  have hs1 : cs.scroll_y ≤ es.doc_lines := by omega
  have hs2 : (1 : Nat) ≤ es.doc_lines - cs.scroll_y := by omega
  have hrowlim : c.row = es.doc_lines - cs.scroll_y - 1 := by omega
  simp [process_keypress_right, hline2, rustSub_eq_some hs1,
    rustSub_eq_some hs2, hrowlim]
  rw [← hrowlim]
  simp [hline2]

/-- Witness for `right_key_last_line_noop`: a two-line document with the
cursor on its second (last) line, Control held, column 0. -/
theorem right_key_last_line_noop_witness :
    (2 : Nat) = (Document.mk [[97, 98], [99, 100]]).inner_lines.length ∧
    (0 : Nat) + 1 + 1 = 2 ∧
    process_keypress_right (some ⟨[[97, 98], [99, 100]]⟩) ⟨true, false⟩
      ⟨0, 1⟩ ⟨2, true, 5, 80⟩ ⟨false, 0, 0⟩ ⟨none, false, none, false⟩
      = some (⟨0, 1⟩, ⟨false, 0, 0⟩, ⟨none, false, none, false⟩) :=
  ⟨by decide, by decide,
    right_key_last_line_noop ⟨[[97, 98], [99, 100]]⟩ ⟨true, false⟩ ⟨0, 1⟩
      ⟨2, true, 5, 80⟩ ⟨false, 0, 0⟩ ⟨none, false, none, false⟩
      (by decide) (by decide)⟩

theorem spaceRun_cons (b : Nat) (rest : List Nat) :
    spaceRun (b :: rest) = if b = 32 then spaceRun rest + 1 else 0 := by
  by_cases hb : b = 32 <;> simp [spaceRun, List.takeWhile_cons, hb]

theorem wordRun_cons (b : Nat) (rest : List Nat) :
    wordRun (b :: rest) = if b = 32 then 0 else wordRun rest + 1 := by
  by_cases hb : b = 32 <;> simp [wordRun, List.takeWhile_cons, hb]

theorem getD_of_lt {l : List Nat} {n : Nat} (h : n < l.length) :
    l.getD n 0 = l[n] := by
  simp [List.getD_eq_getElem?_getD, List.getElem?_eq_getElem h]

/-- The first Control+Right loop advances by exactly the leading space run
of the ln suffix at the cursor (given that the cursor starts within the
ln). -/
theorem skipSpacesFwd_run (ln : List Nat) (maxCol : Nat)
    (hlen : ln.length = maxCol + 1) :
    ∀ n col, maxCol + 1 - col ≤ n → col ≤ maxCol + 1 →
      skipSpacesFwd ln maxCol col = col + spaceRun (ln.drop col) := by
  intro n
  induction n with
  | zero =>
    intro col hn hcol
    have hc : col = maxCol + 1 := by omega
    have hdrop : ln.drop col = [] := by
      rw [hc, ← hlen, List.drop_length]
    rw [skipSpacesFwd, if_neg (fun hco => absurd hco.1 (by omega)), hdrop]
    simp [spaceRun]
  | succ n ih =>
    intro col hn hcol
    by_cases hcond : col ≤ maxCol ∧ ln.getD col 0 = 32
    · have hlt : col < ln.length := by omega
      have hdrop : ln.drop col = ln[col] :: ln.drop (col + 1) :=
        List.drop_eq_getElem_cons hlt
      have hb : ln[col] = 32 := by rw [← getD_of_lt hlt]; exact hcond.2
      rw [skipSpacesFwd, if_pos hcond, ih (col + 1) (by omega) (by omega),
        hdrop, spaceRun_cons, if_pos hb]
      omega
    · rw [skipSpacesFwd, if_neg hcond]
      by_cases hce : col = maxCol + 1
      · have hdrop : ln.drop col = [] := by
          rw [hce, ← hlen, List.drop_length]
        simp [hdrop, spaceRun]
      · have hle : col ≤ maxCol := by omega
        have hlt : col < ln.length := by omega
        have hb : ¬ (ln[col] = 32) := by
          intro hb32
          exact hcond ⟨hle, by rw [getD_of_lt hlt]; exact hb32⟩
        have hdrop : ln.drop col = ln[col] :: ln.drop (col + 1) :=
          List.drop_eq_getElem_cons hlt
        rw [hdrop, spaceRun_cons, if_neg hb]
        omega

/-- The non-space Control+Right loop stops at the end of the leading
non-space run, saturating at `max_col`. -/
theorem skipWordFwd_run (ln : List Nat) (maxCol : Nat)
    (hlen : ln.length = maxCol + 1) :
    ∀ n col, maxCol - col ≤ n → col ≤ maxCol →
      skipWordFwd ln maxCol col = min (col + wordRun (ln.drop col)) maxCol := by
  intro n
  induction n with
  | zero =>
    intro col hn hcol
    have hc : col = maxCol := by omega
    rw [skipWordFwd, if_neg (fun hco => absurd hco.1 (by omega))]
    omega
  | succ n ih =>
    intro col hn hcol
    by_cases hcond : col < maxCol ∧ ln.getD col 0 ≠ 32
    · have hlt : col < ln.length := by omega
      have hdrop : ln.drop col = ln[col] :: ln.drop (col + 1) :=
        List.drop_eq_getElem_cons hlt
      have hb : ¬ (ln[col] = 32) := by
        rw [← getD_of_lt hlt]; exact hcond.2
      rw [skipWordFwd, if_pos hcond, ih (col + 1) (by omega) (by omega),
        hdrop, wordRun_cons, if_neg hb]
      omega
    · rw [skipWordFwd, if_neg hcond]
      by_cases hce : col = maxCol
      · omega
      · have hlt2 : col < maxCol := by omega
        have hlt : col < ln.length := by omega
        have hb : ln[col] = 32 := by
          by_contra hb32
          exact hcond ⟨hlt2, by rw [getD_of_lt hlt]; exact hb32⟩
        have hdrop : ln.drop col = ln[col] :: ln.drop (col + 1) :=
          List.drop_eq_getElem_cons hlt
        rw [hdrop, wordRun_cons, if_pos hb]
        omega

/-- The second (strictly bounded) space loop of Control+Right stops at the
end of the space run, saturating at `max_col`. -/
theorem skipSpacesFwdStrict_run (ln : List Nat) (maxCol : Nat)
    (hlen : ln.length = maxCol + 1) :
    ∀ n col, maxCol - col ≤ n → col ≤ maxCol →
      skipSpacesFwdStrict ln maxCol col
        = min (col + spaceRun (ln.drop col)) maxCol := by
  intro n
  induction n with
  | zero =>
    intro col hn hcol
    have hc : col = maxCol := by omega
    rw [skipSpacesFwdStrict, if_neg (fun hco => absurd hco.1 (by omega))]
    omega
  | succ n ih =>
    intro col hn hcol
    by_cases hcond : col < maxCol ∧ ln.getD col 0 = 32
    · have hlt : col < ln.length := by omega
      have hdrop : ln.drop col = ln[col] :: ln.drop (col + 1) :=
        List.drop_eq_getElem_cons hlt
      have hb : ln[col] = 32 := by
        rw [← getD_of_lt hlt]; exact hcond.2
      rw [skipSpacesFwdStrict, if_pos hcond, ih (col + 1) (by omega) (by omega),
        hdrop, spaceRun_cons, if_pos hb]
      omega
    · rw [skipSpacesFwdStrict, if_neg hcond]
      by_cases hce : col = maxCol
      · omega
      · have hlt2 : col < maxCol := by omega
        have hlt : col < ln.length := by omega
        have hb : ¬ (ln[col] = 32) := by
          intro hb32
          exact hcond ⟨hlt2, by rw [getD_of_lt hlt]; exact hb32⟩
        have hdrop : ln.drop col = ln[col] :: ln.drop (col + 1) :=
          List.drop_eq_getElem_cons hlt
        rw [hdrop, spaceRun_cons, if_neg hb]
        omega

/-- C7 (amended): with a document loaded, the cursor on a valid line that
is NOT the last document line (on the last line the handler discards the
event, see the counterexample), and the column strictly inside the line,
a Control+Right event advances the column exactly as described: through
the current run of spaces when the character under the cursor is a space,
otherwise through the run of non-spaces followed by the run of spaces,
bounded by the line's last index; `last_column` is set when the landing
column is the last index. -/
theorem word_forward_spec_correct (d : Document) (mods : Modifiers)
    (c : Cursor) (es : EditorState) (cs : CursorState) (rs : RenderState)
    (ln : List Nat)
    (hline : d.inner_lines.get? (cs.scroll_y + c.row) = some ln)
    (hsy : cs.scroll_y < es.doc_lines)
    (hnotlast : cs.scroll_y + c.row + 1 ≠ es.doc_lines)
    (hctrl : mods.control = true)
    (hcol : c.column < ln.length)
    (hne : c.column ≠ ln.length - 1) :
    process_keypress_right (some d) mods c es cs rs
      = some ({ c with column := wordForwardSpec ln c.column },
          (if wordForwardSpec ln c.column = ln.length - 1 then
            { cs with last_column := true } else cs),
          { rs with last_cursor := some c }) := by
  have hline2 : d.inner_lines[cs.scroll_y + c.row]? = some ln := by
    simpa using hline
  have hlen1 : 1 ≤ ln.length := by omega
  have hlen : ln.length = (ln.length - 1) + 1 := by omega
  have hc1 : cs.scroll_y ≤ es.doc_lines := hsy.le
  have hc2 : (1 : Nat) ≤ es.doc_lines - cs.scroll_y := by omega
  have hcond1 : ¬ (c.row = es.doc_lines - cs.scroll_y - 1) := by omega
  have hget : ln[c.column]? = some (ln[c.column]) :=
    List.getElem?_eq_getElem hcol
  by_cases hb : ln[c.column] = 32
  · have hrun := skipSpacesFwd_run ln (ln.length - 1) hlen ln.length
      c.column (by omega) (by omega)
    have hval : min (ln.length - 1) (skipSpacesFwd ln (ln.length - 1) c.column)
        = wordForwardSpec ln c.column := by
      rw [hrun]
      simp [wordForwardSpec, hget, hb]
    simp [process_keypress_right, hline2, rustSub_eq_some hc1,
      rustSub_eq_some hc2, hcond1, hne, hctrl, hget, hb, hval]
  · have hcolle : c.column ≤ ln.length - 1 := by omega
    have hw := skipWordFwd_run ln (ln.length - 1) hlen ln.length
      c.column (by omega) hcolle
    have hwle : skipWordFwd ln (ln.length - 1) c.column ≤ ln.length - 1 := by
      rw [hw]; omega
    have hs := skipSpacesFwdStrict_run ln (ln.length - 1) hlen ln.length
      (skipWordFwd ln (ln.length - 1) c.column) (by omega) hwle
    have hval : min (ln.length - 1)
        (skipSpacesFwdStrict ln (ln.length - 1)
          (skipWordFwd ln (ln.length - 1) c.column))
        = wordForwardSpec ln c.column := by
      rw [hs, hw]
      have hgd : ln.getD c.column 0 = ln[c.column] := getD_of_lt hcol
      simp only [wordForwardSpec, hgd, hb, if_false]
      by_cases hcase : c.column + wordRun (ln.drop c.column) ≤ ln.length - 1
      · rw [Nat.min_eq_left hcase]
        omega
      · have h1 : min (c.column + wordRun (ln.drop c.column)) (ln.length - 1)
            = ln.length - 1 := by omega
        rw [h1]
        omega
    simp [process_keypress_right, hline2, rustSub_eq_some hc1,
      rustSub_eq_some hc2, hcond1, hne, hctrl, hget, hb, hval]

/-- Witness for `word_forward_spec_correct`: the specification's example.
On a two-line document whose first line is `"  hello world"`, word-forward
from column 0 lands on column 2 (start of "hello") and word-forward from
column 2 lands on column 8 (start of "world"). -/
theorem word_forward_spec_correct_witness :
    (Document.mk [[32, 32, 104, 101, 108, 108, 111, 32, 119, 111, 114, 108,
        100], [120]]).inner_lines.get? (0 + (0 : Nat))
      = some [32, 32, 104, 101, 108, 108, 111, 32, 119, 111, 114, 108, 100] ∧
    (0 : Nat) < 2 ∧ (0 : Nat) + 0 + 1 ≠ 2 ∧
    (process_keypress_right
        (some ⟨[[32, 32, 104, 101, 108, 108, 111, 32, 119, 111, 114, 108, 100],
          [120]]⟩) ⟨true, false⟩ ⟨0, 0⟩ ⟨2, true, 5, 80⟩ ⟨false, 0, 0⟩
        ⟨none, false, none, false⟩
      = some (⟨wordForwardSpec [32, 32, 104, 101, 108, 108, 111, 32, 119, 111,
          114, 108, 100] 0, 0⟩,
          (if wordForwardSpec [32, 32, 104, 101, 108, 108, 111, 32, 119, 111,
              114, 108, 100] 0
            = ([32, 32, 104, 101, 108, 108, 111, 32, 119, 111, 114, 108,
                100] : List Nat).length - 1 then
            ⟨true, 0, 0⟩ else ⟨false, 0, 0⟩),
          ⟨none, false, some ⟨0, 0⟩, false⟩)) ∧
    (process_keypress_right
        (some ⟨[[32, 32, 104, 101, 108, 108, 111, 32, 119, 111, 114, 108, 100],
          [120]]⟩) ⟨true, false⟩ ⟨2, 0⟩ ⟨2, true, 5, 80⟩ ⟨false, 0, 0⟩
        ⟨none, false, none, false⟩
      = some (⟨wordForwardSpec [32, 32, 104, 101, 108, 108, 111, 32, 119, 111,
          114, 108, 100] 2, 0⟩,
          (if wordForwardSpec [32, 32, 104, 101, 108, 108, 111, 32, 119, 111,
              114, 108, 100] 2
            = ([32, 32, 104, 101, 108, 108, 111, 32, 119, 111, 114, 108,
                100] : List Nat).length - 1 then
            ⟨true, 0, 0⟩ else ⟨false, 0, 0⟩),
          ⟨none, false, some ⟨2, 0⟩, false⟩)) ∧
    wordForwardSpec [32, 32, 104, 101, 108, 108, 111, 32, 119, 111, 114, 108,
      100] 0 = 2 ∧
    wordForwardSpec [32, 32, 104, 101, 108, 108, 111, 32, 119, 111, 114, 108,
      100] 2 = 8 :=
  ⟨by decide, by decide, by decide,
    word_forward_spec_correct
      ⟨[[32, 32, 104, 101, 108, 108, 111, 32, 119, 111, 114, 108, 100], [120]]⟩
      ⟨true, false⟩ ⟨0, 0⟩ ⟨2, true, 5, 80⟩ ⟨false, 0, 0⟩
      ⟨none, false, none, false⟩
      [32, 32, 104, 101, 108, 108, 111, 32, 119, 111, 114, 108, 100]
      (by decide) (by decide) (by decide) (by decide) (by decide) (by decide),
    word_forward_spec_correct
      ⟨[[32, 32, 104, 101, 108, 108, 111, 32, 119, 111, 114, 108, 100], [120]]⟩
      ⟨true, false⟩ ⟨2, 0⟩ ⟨2, true, 5, 80⟩ ⟨false, 0, 0⟩
      ⟨none, false, none, false⟩
      [32, 32, 104, 101, 108, 108, 111, 32, 119, 111, 114, 108, 100]
      (by decide) (by decide) (by decide) (by decide) (by decide) (by decide),
    by decide, by decide⟩

/-- The scanning loop of `Document::new`, started at position `i` with the
current line spanning `bytes[start..start + len]` (so `i = start + len`),
materialises exactly the lines the spec-side splitter produces from the
remaining input, with the pending segment as accumulator. -/
theorem docScan_spec (bytes : List Nat) :
    ∀ n start len i, i = start + len → i ≤ bytes.length →
      bytes.length - i ≤ n →
      (docScan bytes start len i).map (fun p => (bytes.drop p.1).take p.2)
        = splitLinesAux ((bytes.drop start).take len) (bytes.drop i) := by
  intro n
  induction n with
  | zero =>
    intro start len i hi hle hn
    have hdrop : bytes.drop i = [] := List.drop_eq_nil_of_le (by omega)
    rw [docScan, if_neg (by omega), hdrop]
    simp [splitLinesAux]
  | succ n ih =>
    intro start len i hi hle hn
    by_cases hilt : i < bytes.length
    case neg =>
      have hdrop : bytes.drop i = [] := List.drop_eq_nil_of_le (by omega)
      rw [docScan, if_neg hilt, hdrop]
      simp [splitLinesAux]
    case pos =>
      have hdropi : bytes.drop i = bytes[i] :: bytes.drop (i + 1) :=
        List.drop_eq_getElem_cons hilt
      have hgd : bytes.getD i 0 = bytes[i] := getD_of_lt hilt
      by_cases hcr : bytes.getD i 0 = 13 ∧ i + 1 < bytes.length ∧
          bytes.getD (i + 1) 0 = 10
      · obtain ⟨h13, hlt1, h10⟩ := hcr
        have hb13 : bytes[i] = 13 := by rw [← hgd]; exact h13
        have hb10 : bytes[i + 1] = 10 := by rw [← getD_of_lt hlt1]; exact h10
        have hdropi1 : bytes.drop (i + 1) = bytes[i + 1] :: bytes.drop (i + 2) :=
          List.drop_eq_getElem_cons hlt1
        rw [docScan, if_pos hilt, if_pos ⟨h13, hlt1, h10⟩]
        simp only [List.map_cons]
        rw [ih (i + 2) 0 (i + 2) (by omega) (by omega) (by omega)]
        rw [hdropi, hdropi1, hb13, hb10]
        simp [splitLinesAux]
      · by_cases hlf : bytes.getD i 0 = 10
        · have hb10 : bytes[i] = 10 := by rw [← hgd]; exact hlf
          rw [docScan, if_pos hilt, if_neg hcr, if_pos hlf]
          simp only [List.map_cons]
          rw [ih (i + 1) 0 (i + 1) (by omega) (by omega) (by omega)]
          rw [hdropi, hb10]
          simp [splitLinesAux]
        · have hbn10 : ¬ (bytes[i] = 10) := by rw [← hgd]; exact hlf
          have hcond : ¬ (bytes[i] = 13 ∧
              (bytes.drop (i + 1)).head? = some 10) := by
            rintro ⟨hb13, hhead⟩
            have h13 : bytes.getD i 0 = 13 := by rw [hgd]; exact hb13
            by_cases hlt1 : i + 1 < bytes.length
            · have hn10 : ¬ (bytes.getD (i + 1) 0 = 10) := by
                intro h10
                exact hcr ⟨h13, hlt1, h10⟩
              have hdropi1 : bytes.drop (i + 1)
                  = bytes[i + 1] :: bytes.drop (i + 2) :=
                List.drop_eq_getElem_cons hlt1
              rw [hdropi1] at hhead
              simp only [List.head?_cons, Option.some.injEq] at hhead
              exact hn10 (by rw [getD_of_lt hlt1]; exact hhead)
            · have hdrop1 : bytes.drop (i + 1) = [] :=
                List.drop_eq_nil_of_le (by omega)
              rw [hdrop1] at hhead
              simp at hhead
          have htake : (bytes.drop start).take (len + 1)
              = (bytes.drop start).take len ++ [bytes[i]] := by
            rw [List.take_succ]
            have hidx : (bytes.drop start)[len]? = some bytes[i] := by
              rw [List.getElem?_drop]
              have : start + len = i := by omega
              rw [this]
              exact List.getElem?_eq_getElem hilt
            rw [hidx]
            rfl
          rw [docScan, if_pos hilt, if_neg hcr, if_neg hlf]
          rw [ih start (len + 1) (i + 1) (by omega) (by omega) (by omega)]
          rw [hdropi]
          conv_rhs => rw [splitLinesAux]
          rw [if_neg hbn10, if_neg hcond, htake]

/-- C9 (amended): `Document::new` splits the byte stream into one line per
terminator-ended physical line, in order, with `\n` and `\r\n` stripped and
no terminator bytes retained — but a final physical line that the file does
not end with a terminator is dropped, not emitted (see the counterexample). -/
theorem document_new_splits_terminated_lines (bytes : List Nat) :
    document_new bytes = splitLines bytes := by
  have h := docScan_spec bytes bytes.length 0 0 0 (by omega) (by omega)
    (by omega)
  simpa [document_new, splitLines] using h

end Pepe
